import Mathlib

/-!
Verification of the field_names derive crate.

The crate has two derive generators, one for struct field names
(src/fields.rs) and one for enum variant names (src/variants.rs).
Each decodes the annotated declaration into a Receiver, filters out
members marked with the skip option, and emits an associated constant
(FIELDS or VARIANTS) holding the remaining member names in declaration
order.

The filter and emit logic is embedded directly from the source.  The
decode stage is produced by the FromDeriveInput / FromField / FromVariant
derives of the darling library; only its declarations (the Receiver
structs and their darling attributes) are under src/, so the decoders
themselves are modelled from the spec, as marked in their doc comments.
-/

/-- A single item inside a tool-namespace annotation: either a bare word
such as skip, or a name with a supplied value such as skip = true. -/
inductive MetaItem where
  | word (name : String)
  | nameValue (name : String) (value : Bool)
deriving DecidableEq, Repr

/-- The option name an annotation item refers to. -/
def MetaItem.optionName : MetaItem → String
  | .word n => n
  | .nameValue n _ => n

/-- Decode-time errors, following the taxonomy of the spec (section 7). -/
inductive DecodeError where
  | UnsupportedShape
  | MissingMemberName
  | UnknownOption
  | Malformed
deriving DecidableEq, Repr

/-- The generics signature of a declaration: type parameters and
where-clause constraints, carried opaquely since the generators only echo
them back unchanged. -/
structure Generics where
  params : List String
  whereClause : List String
deriving DecidableEq, Repr

/-- An input field of a struct declaration: an optional identifier (none
for a positional field of a tuple struct) and the items of its
tool-namespace annotation. -/
structure InputField where
  ident : Option String
  attrs : List MetaItem
deriving DecidableEq, Repr

/-- The internal payload shape of an enum variant in the input. -/
inductive VariantShape where
  | unit
  | tupleLike (arity : Nat)
  | structLike (fieldNames : List String)
deriving DecidableEq, Repr

/-- An input variant of an enum declaration: its identifier, its payload
shape, and the items of its tool-namespace annotation. -/
structure InputVariant where
  ident : String
  shape : VariantShape
  attrs : List MetaItem
deriving DecidableEq, Repr

/-- The style of a struct declaration's field list. -/
inductive FieldStyle where
  | named
  | tupled
  | unitStyle
deriving DecidableEq, Repr

/-- The body of an input declaration: a struct with some field style, an
enum, or a union. -/
inductive InputData where
  | structData (style : FieldStyle) (fields : List InputField)
  | enumData (variants : List InputVariant)
  | unionData (fields : List InputField)
deriving DecidableEq, Repr

/-- The raw derive input handed to a generator by the host toolchain:
the type identifier, its generics signature, and its body. -/
structure DeriveInput where
  ident : String
  generics : Generics
  data : InputData
deriving DecidableEq, Repr

/-- Modelled from the spec: decoding of one member's tool-namespace
annotation item list into the skip flag.  The recognized option set is
closed: a bare skip sets the flag, skip with a supplied value is a
malformed annotation, and any other option name is an unknown option.
Absence of any item leaves the default false. -/
def decodeSkip : List MetaItem → Except DecodeError Bool
  | [] => .ok false
  | .word n :: rest =>
    if n = "skip" then (decodeSkip rest).map fun _ => true
    else .error .UnknownOption
  | .nameValue n _ :: _ =>
    if n = "skip" then .error .Malformed
    else .error .UnknownOption

/-- Sequences a fallible decoder over a list, failing on the first
member whose decode fails. -/
def collectExcept (g : α → Except DecodeError β) : List α → Except DecodeError (List β)
  | [] => .ok []
  | a :: as =>
    match g a with
    | .error e => .error e
    | .ok b => (collectExcept g as).map fun bs => b :: bs

/-- One associated constant of an emitted fragment: its name, the length
appearing in its fixed-size string-array type, and its elements. -/
structure ConstDef where
  name : String
  len : Nat
  elems : List String
deriving DecidableEq, Repr

/-- The code fragment a generator emits: an inherent impl block for the
original type, reproducing its identifier and generics signature and
holding its associated constants. -/
structure Fragment where
  ident : String
  generics : Generics
  consts : List ConstDef
deriving DecidableEq, Repr

/-- The darling ast Data sum carried by a Receiver: enum variants or
struct fields together with the field style. -/
inductive Data (V F : Type) where
  | Enum (variants : List V)
  | Struct (style : FieldStyle) (fields : List F)
deriving DecidableEq, Repr

/-- The darling take_struct accessor: the field list when the data is
struct shaped, none otherwise. -/
def Data.take_struct : Data V F → Option (FieldStyle × List F)
  | .Struct style fs => some (style, fs)
  | .Enum _ => none

/-- The darling take_enum accessor: the variant list when the data is
enum shaped, none otherwise. -/
def Data.take_enum : Data V F → Option (List V)
  | .Enum vs => some vs
  | .Struct _ _ => none

namespace fields

/-- The per-field receiver of the field-name generator, from
src/fields.rs: the optional field identifier and the decoded skip flag. -/
structure ReceiverField where
  ident : Option String
  skip : Bool
deriving DecidableEq, Repr

/-- ReceiverField.name from src/fields.rs renders the field identifier
as text; the expect call panics when the identifier is absent, modelled
here as none. -/
def ReceiverField.name (f : ReceiverField) : Option String :=
  f.ident

/-- The top-level receiver of the field-name generator, from
src/fields.rs. -/
structure Receiver where
  ident : String
  generics : Generics
  data : Data Unit ReceiverField
deriving DecidableEq, Repr

/-- The map-and-collect over retained fields inside fields_to_emit: each
field is rendered by ReceiverField.name, and a panic (none) in any
rendering aborts the whole collection. -/
def collectNames : List ReceiverField → Option (List String)
  | [] => some []
  | f :: fs =>
    match f.name with
    | none => none
    | some n => (collectNames fs).map fun ns => n :: ns

/-- Receiver.fields_to_emit from src/fields.rs: take_struct (whose
failure is a panic, modelled as none), drop fields whose skip flag is
set, and render each remaining field identifier as text. -/
def Receiver.fields_to_emit (r : Receiver) : Option (List String) :=
  match r.data.take_struct with
  | none => none
  | some fs => collectNames (fs.2.filter fun f => !f.skip)

/-- The ToTokens impl of src/fields.rs: emit an impl block for the
original type, with its generics split and echoed, containing one
associated constant FIELDS of type fixed-size string array whose length
is the filtered field count. -/
def Receiver.to_tokens (r : Receiver) : Option Fragment :=
  (r.fields_to_emit).map fun fields =>
    { ident := r.ident
      generics := r.generics
      consts := [{ name := "FIELDS", len := fields.length, elems := fields }] }

/-- Modelled from the spec: the FromField decoder that the darling
derive generates for ReceiverField, absent from src/.  It keeps the
optional identifier and decodes the skip flag from the field_names
annotation items. -/
def decodeField (f : InputField) : Except DecodeError ReceiverField :=
  match f.ident with
  | none => .error .MissingMemberName
  | some n => (decodeSkip f.attrs).map fun s => { ident := some n, skip := s }

/-- Decodes every field of a struct body in declaration order. -/
def decodeFields : List InputField → Except DecodeError (List ReceiverField) :=
  collectExcept decodeField

/-- Modelled from the spec: the FromDeriveInput decoder that the darling
derive generates for Receiver, absent from src/.  The darling supports
clause struct_named accepts only structs whose every field is named and
rejects every other declaration shape. -/
def Receiver.from_derive_input (inp : DeriveInput) : Except DecodeError Receiver :=
  match inp.data with
  | .structData .named fs =>
    (decodeFields fs).map fun rfs =>
      { ident := inp.ident, generics := inp.generics, data := .Struct .named rfs }
  | _ => .error .UnsupportedShape

end fields

/-- The derive_field_names entry point from src/lib.rs: decode the input
into a Receiver and on success emit its token fragment (a panic during
emission modelled as none); on decode failure the error is written out
as a diagnostic and no fragment is produced. -/
def derive_field_names (inp : DeriveInput) : Except DecodeError (Option Fragment) :=
  (fields.Receiver.from_derive_input inp).map fields.Receiver.to_tokens

namespace variants

/-- The per-variant receiver of the variant-name generator, from
src/variants.rs: the variant identifier and the decoded skip flag. -/
structure ReceiverVariant where
  ident : String
  skip : Bool
deriving DecidableEq, Repr

/-- The top-level receiver of the variant-name generator, from
src/variants.rs. -/
structure Receiver where
  ident : String
  generics : Generics
  data : Data ReceiverVariant Unit
deriving DecidableEq, Repr

/-- Receiver.variants_to_emit from src/variants.rs: take_enum (whose
failure is a panic, modelled as none), drop variants whose skip flag is
set, and render each remaining variant identifier as text. -/
def Receiver.variants_to_emit (r : Receiver) : Option (List String) :=
  match r.data.take_enum with
  | none => none
  | some vs => some ((vs.filter fun v => !v.skip).map fun v => v.ident)

/-- The ToTokens impl of src/variants.rs: emit an impl block for the
original type, with its generics split and echoed, containing one
associated constant VARIANTS of type fixed-size string array whose
length is the filtered variant count. -/
def Receiver.to_tokens (r : Receiver) : Option Fragment :=
  (r.variants_to_emit).map fun vs =>
    { ident := r.ident
      generics := r.generics
      consts := [{ name := "VARIANTS", len := vs.length, elems := vs }] }

/-- Modelled from the spec: the FromVariant decoder that the darling
derive generates for ReceiverVariant, absent from src/.  It keeps the
variant identifier, ignores the payload shape entirely, and decodes the
skip flag from the variant_names annotation items. -/
def decodeVariant (v : InputVariant) : Except DecodeError ReceiverVariant :=
  (decodeSkip v.attrs).map fun s => { ident := v.ident, skip := s }

/-- Decodes every variant of an enum body in declaration order. -/
def decodeVariants : List InputVariant → Except DecodeError (List ReceiverVariant) :=
  collectExcept decodeVariant

/-- Modelled from the spec: the FromDeriveInput decoder that the darling
derive generates for Receiver, absent from src/.  The darling supports
clause enum_any accepts every enum regardless of variant payload shape
and rejects structs and unions. -/
def Receiver.from_derive_input (inp : DeriveInput) : Except DecodeError Receiver :=
  match inp.data with
  | .enumData vs =>
    (decodeVariants vs).map fun rvs =>
      { ident := inp.ident, generics := inp.generics, data := .Enum rvs }
  | _ => .error .UnsupportedShape

end variants

/-- The derive_variant_names entry point from src/lib.rs: decode the
input into a Receiver and on success emit its token fragment; on decode
failure the error is written out as a diagnostic and no fragment is
produced. -/
def derive_variant_names (inp : DeriveInput) : Except DecodeError (Option Fragment) :=
  (variants.Receiver.from_derive_input inp).map variants.Receiver.to_tokens

/-! Concrete example declarations, mirroring the unit tests of
src/fields.rs and src/variants.rs, used to instantiate the theorems. -/

/-- The skip_field test struct of src/fields.rs: hello, hidden marked
skip, world. -/
def exStructInput : DeriveInput :=
  { ident := "Example", generics := { params := [], whereClause := [] },
    data := InputData.structData FieldStyle.named
      [ { ident := some "hello", attrs := [] },
        { ident := some "hidden", attrs := [MetaItem.word "skip"] },
        { ident := some "world", attrs := [] } ] }

/-- The receiver the field-name decoder produces for exStructInput. -/
def exStructReceiver : fields.Receiver :=
  { ident := "Example", generics := { params := [], whereClause := [] },
    data := Data.Struct FieldStyle.named
      [ { ident := some "hello", skip := false },
        { ident := some "hidden", skip := true },
        { ident := some "world", skip := false } ] }

/-- The skip_variant test enum of src/variants.rs: a tuple variant, a
skipped tuple variant, and a struct-like variant. -/
def exEnumInput : DeriveInput :=
  { ident := "Example", generics := { params := [], whereClause := [] },
    data := InputData.enumData
      [ { ident := "Hello", shape := VariantShape.tupleLike 1, attrs := [] },
        { ident := "Secret", shape := VariantShape.tupleLike 1,
          attrs := [MetaItem.word "skip"] },
        { ident := "World", shape := VariantShape.structLike ["planet", "person"],
          attrs := [] } ] }

/-- The receiver the variant-name decoder produces for exEnumInput. -/
def exEnumReceiver : variants.Receiver :=
  { ident := "Example", generics := { params := [], whereClause := [] },
    data := Data.Enum
      [ { ident := "Hello", skip := false },
        { ident := "Secret", skip := true },
        { ident := "World", skip := false } ] }

/-- The variant list of exEnumInput as a bare list. -/
def exEnumVariants : List InputVariant :=
  [ { ident := "Hello", shape := VariantShape.tupleLike 1, attrs := [] },
    { ident := "Secret", shape := VariantShape.tupleLike 1,
      attrs := [MetaItem.word "skip"] },
    { ident := "World", shape := VariantShape.structLike ["planet", "person"],
      attrs := [] } ]

/-- The same variants with every payload shape changed to unit. -/
def exEnumVariantsUnitShape : List InputVariant :=
  [ { ident := "Hello", shape := VariantShape.unit, attrs := [] },
    { ident := "Secret", shape := VariantShape.unit,
      attrs := [MetaItem.word "skip"] },
    { ident := "World", shape := VariantShape.unit, attrs := [] } ]

/-- A tuple struct, an unsupported shape for the field extractor. -/
def exTupleInput : DeriveInput :=
  { ident := "Pair", generics := { params := [], whereClause := [] },
    data := InputData.structData FieldStyle.tupled
      [ { ident := none, attrs := [] }, { ident := none, attrs := [] } ] }

/-- A named struct whose every field carries the skip flag. -/
def exAllSkipFields : List InputField :=
  [ { ident := some "a", attrs := [MetaItem.word "skip"] },
    { ident := some "b", attrs := [MetaItem.word "skip"] } ]

/-- A generics signature with one parameter and one constraint. -/
def exGenericsA : Generics :=
  { params := ["T"], whereClause := ["T: Clone"] }

/-- A different generics signature. -/
def exGenericsB : Generics :=
  { params := ["U"], whereClause := [] }

/-! Helper lemmas shared across the claims. -/

/-- Inversion for a successful field decode: the identifier is kept and
is present. -/
theorem decodeField_ok_ident {f : InputField} {rf : fields.ReceiverField}
    (h : fields.decodeField f = .ok rf) :
    rf.ident = f.ident ∧ (rf.ident).isSome = true := by
  unfold fields.decodeField at h
  cases hi : f.ident with
  | none => rw [hi] at h; exact absurd h (by simp)
  | some n =>
    rw [hi] at h
    cases hs : decodeSkip f.attrs with
    | error e => rw [hs] at h; exact absurd h (by simp [Except.map])
    | ok s =>
      rw [hs] at h
      simp only [Except.map, Except.ok.injEq] at h
      subst h
      exact ⟨rfl, rfl⟩

/-- Inversion for a successful decode of a whole field list: identifiers
are kept in declaration order and every decoded field has one. -/
theorem decodeFields_ok_idents :
    ∀ {fs : List InputField} {rfs : List fields.ReceiverField},
      fields.decodeFields fs = .ok rfs →
      rfs.map fields.ReceiverField.ident = fs.map InputField.ident ∧
      ∀ rf ∈ rfs, (rf.ident).isSome = true := by
  intro fs
  induction fs with
  | nil =>
    intro rfs h
    simp only [fields.decodeFields, collectExcept, Except.ok.injEq] at h
    subst h
    exact ⟨rfl, by intro rf hrf; cases hrf⟩
  | cons f fs ih =>
    intro rfs h
    simp only [fields.decodeFields, collectExcept] at h
    cases hf : fields.decodeField f with
    | error e => rw [hf] at h; exact absurd h (by simp)
    | ok b =>
      rw [hf] at h
      cases hrest : collectExcept fields.decodeField fs with
      | error e => rw [hrest] at h; exact absurd h (by simp [Except.map])
      | ok bs =>
        rw [hrest] at h
        simp only [Except.map, Except.ok.injEq] at h
        subst h
        obtain ⟨hb, hbsome⟩ := decodeField_ok_ident hf
        obtain ⟨hmap, hall⟩ := @ih bs hrest
        refine ⟨by simp [hb, hmap], ?_⟩
        intro rf hrf
        rcases List.mem_cons.mp hrf with hrf | hrf
        · subst hrf; exact hbsome
        · exact hall rf hrf

/-- Inversion for a successful decode of a whole variant list: variant
identifiers are kept in declaration order. -/
theorem decodeVariants_ok_idents :
    ∀ {vs : List InputVariant} {rvs : List variants.ReceiverVariant},
      variants.decodeVariants vs = .ok rvs →
      rvs.map variants.ReceiverVariant.ident = vs.map InputVariant.ident := by
  intro vs
  induction vs with
  | nil =>
    intro rvs h
    simp only [variants.decodeVariants, collectExcept, Except.ok.injEq] at h
    subst h
    rfl
  | cons v vs ih =>
    intro rvs h
    simp only [variants.decodeVariants, collectExcept] at h
    cases hv : variants.decodeVariant v with
    | error e => rw [hv] at h; exact absurd h (by simp)
    | ok b =>
      rw [hv] at h
      cases hrest : collectExcept variants.decodeVariant vs with
      | error e => rw [hrest] at h; exact absurd h (by simp [Except.map])
      | ok bs =>
        rw [hrest] at h
        simp only [Except.map, Except.ok.injEq] at h
        subst h
        have hb : b.ident = v.ident := by
          unfold variants.decodeVariant at hv
          cases hs : decodeSkip v.attrs with
          | error e => rw [hs] at hv; exact absurd hv (by simp [Except.map])
          | ok s =>
            rw [hs] at hv
            simp only [Except.map, Except.ok.injEq] at hv
            subst hv
            rfl
        simp [hb, @ih bs hrest]

/-- When every field in the list still has its identifier, the collect
inside fields_to_emit succeeds with exactly those identifiers. -/
theorem collectNames_eq_filterMap :
    ∀ {l : List fields.ReceiverField}, (∀ f ∈ l, (f.ident).isSome = true) →
      fields.collectNames l = some (l.filterMap fields.ReceiverField.ident) := by
  intro l
  induction l with
  | nil => intro _; rfl
  | cons f fs ih =>
    intro h
    obtain ⟨n, hn⟩ := Option.isSome_iff_exists.mp (h f (List.mem_cons_self f fs))
    have hrest := ih fun g hg => h g (List.mem_cons_of_mem f hg)
    simp [fields.collectNames, fields.ReceiverField.name, hn, hrest,
      List.filterMap_cons]

/-- Inversion for a successful run of the field-name decoder: the input
was a named-field struct and the receiver carries its decoded fields. -/
theorem fields_decode_ok {inp : DeriveInput} {r : fields.Receiver}
    (h : fields.Receiver.from_derive_input inp = .ok r) :
    ∃ fs rfs,
      inp.data = InputData.structData FieldStyle.named fs ∧
      fields.decodeFields fs = Except.ok rfs ∧
      r = { ident := inp.ident, generics := inp.generics,
            data := Data.Struct FieldStyle.named rfs } := by
  unfold fields.Receiver.from_derive_input at h
  split at h
  · rename_i fs heq
    cases hdec : fields.decodeFields fs with
    | error e => rw [hdec] at h; exact Except.noConfusion h
    | ok rfs =>
      rw [hdec] at h
      simp only [Except.map, Except.ok.injEq] at h
      exact ⟨fs, rfs, heq, hdec, h.symm⟩
  · exact Except.noConfusion h

/-- Inversion for a successful run of the variant-name decoder: the
input was an enum and the receiver carries its decoded variants. -/
theorem variants_decode_ok {inp : DeriveInput} {r : variants.Receiver}
    (h : variants.Receiver.from_derive_input inp = .ok r) :
    ∃ vs rvs,
      inp.data = InputData.enumData vs ∧
      variants.decodeVariants vs = Except.ok rvs ∧
      r = { ident := inp.ident, generics := inp.generics,
            data := Data.Enum rvs } := by
  unfold variants.Receiver.from_derive_input at h
  split at h
  · rename_i vs heq
    cases hdec : variants.decodeVariants vs with
    | error e => rw [hdec] at h; exact Except.noConfusion h
    | ok rvs =>
      rw [hdec] at h
      simp only [Except.map, Except.ok.injEq] at h
      exact ⟨vs, rvs, heq, hdec, h.symm⟩
  · exact Except.noConfusion h

/-- C1: for every validated declaration (named-field struct for the
field extractor, enum for the variant extractor), the emitted name list
equals the members in source declaration order with exactly the
skip-flagged members dropped, each retained member rendered as its
identifier text; the emitted list is a sublist of the full member-name
list, so the relative order of any two non-skipped members matches their
relative order in the source. -/
theorem C1_emitted_list_is_ordered_skip_filter
    (inpF inpV : DeriveInput) (r : fields.Receiver) (rv : variants.Receiver)
    (hf : fields.Receiver.from_derive_input inpF = .ok r)
    (hv : variants.Receiver.from_derive_input inpV = .ok rv) :
    (∃ fs rfs,
        inpF.data = InputData.structData FieldStyle.named fs ∧
        r.data = Data.Struct FieldStyle.named rfs ∧
        rfs.map fields.ReceiverField.ident = fs.map InputField.ident ∧
        r.fields_to_emit =
          some ((rfs.filter fun f => !f.skip).filterMap fields.ReceiverField.ident) ∧
        List.Sublist
          ((rfs.filter fun f => !f.skip).filterMap fields.ReceiverField.ident)
          (rfs.filterMap fields.ReceiverField.ident)) ∧
    (∃ vs rvs,
        inpV.data = InputData.enumData vs ∧
        rv.data = Data.Enum rvs ∧
        rvs.map variants.ReceiverVariant.ident = vs.map InputVariant.ident ∧
        rv.variants_to_emit =
          some ((rvs.filter fun v => !v.skip).map variants.ReceiverVariant.ident) ∧
        List.Sublist
          ((rvs.filter fun v => !v.skip).map variants.ReceiverVariant.ident)
          (rvs.map variants.ReceiverVariant.ident)) := by
  constructor
  · obtain ⟨fs, rfs, hd, hdec, hr⟩ := fields_decode_ok hf
    obtain ⟨hmap, hall⟩ := decodeFields_ok_idents hdec
    refine ⟨fs, rfs, hd, ?_, hmap, ?_, ?_⟩
    · rw [hr]
    · rw [hr]
      show fields.collectNames (rfs.filter fun f => !f.skip) = _
      exact collectNames_eq_filterMap fun f hfm => hall f (List.mem_of_mem_filter hfm)
    · exact List.Sublist.filterMap fields.ReceiverField.ident (List.filter_sublist rfs)
  · obtain ⟨vs, rvs, hd, hdec, hr⟩ := variants_decode_ok hv
    refine ⟨vs, rvs, hd, ?_, decodeVariants_ok_idents hdec, ?_, ?_⟩
    · rw [hr]
    · rw [hr]
      rfl
    · exact List.Sublist.map variants.ReceiverVariant.ident (List.filter_sublist rvs)

/-- Witness for C1 at the two unit-test declarations. -/
theorem C1_emitted_list_is_ordered_skip_filter_witness :
    (∃ fs rfs,
        exStructInput.data = InputData.structData FieldStyle.named fs ∧
        exStructReceiver.data = Data.Struct FieldStyle.named rfs ∧
        rfs.map fields.ReceiverField.ident = fs.map InputField.ident ∧
        exStructReceiver.fields_to_emit =
          some ((rfs.filter fun f => !f.skip).filterMap fields.ReceiverField.ident) ∧
        List.Sublist
          ((rfs.filter fun f => !f.skip).filterMap fields.ReceiverField.ident)
          (rfs.filterMap fields.ReceiverField.ident)) ∧
    (∃ vs rvs,
        exEnumInput.data = InputData.enumData vs ∧
        exEnumReceiver.data = Data.Enum rvs ∧
        rvs.map variants.ReceiverVariant.ident = vs.map InputVariant.ident ∧
        exEnumReceiver.variants_to_emit =
          some ((rvs.filter fun v => !v.skip).map variants.ReceiverVariant.ident) ∧
        List.Sublist
          ((rvs.filter fun v => !v.skip).map variants.ReceiverVariant.ident)
          (rvs.map variants.ReceiverVariant.ident)) :=
  C1_emitted_list_is_ordered_skip_filter exStructInput exEnumInput
    exStructReceiver exEnumReceiver (by rfl) (by rfl)

/-- Decoding a field list whose members all have identifiers and all
carry a bare skip annotation succeeds, with every skip flag set. -/
theorem decodeFields_all_skip :
    ∀ {fs : List InputField},
      (∀ f ∈ fs, (f.ident).isSome = true ∧ f.attrs = [MetaItem.word "skip"]) →
      ∃ rfs, fields.decodeFields fs = Except.ok rfs ∧ ∀ rf ∈ rfs, rf.skip = true := by
  intro fs
  induction fs with
  | nil => intro _; exact ⟨[], rfl, by intro rf hm; cases hm⟩
  | cons f fs ih =>
    intro h
    obtain ⟨hsome, hattrs⟩ := h f (List.mem_cons_self f fs)
    obtain ⟨n, hn⟩ := Option.isSome_iff_exists.mp hsome
    obtain ⟨rfs, hrfs, hall⟩ := ih fun g hg => h g (List.mem_cons_of_mem f hg)
    have hdf : fields.decodeField f = Except.ok { ident := some n, skip := true } := by
      unfold fields.decodeField
      rw [hn, hattrs]
      rfl
    have hrfs2 : collectExcept fields.decodeField fs = Except.ok rfs := hrfs
    refine ⟨{ ident := some n, skip := true } :: rfs, ?_, ?_⟩
    · show collectExcept fields.decodeField (f :: fs) = _
      simp [collectExcept, hdf, hrfs2, Except.map]
    · intro rf hm
      rcases List.mem_cons.mp hm with hm | hm
      · subst hm; rfl
      · exact hall rf hm

/-- C2: a named-field declaration whose every member carries the skip
flag still generates successfully and emits a name list of length 0 (an
empty fixed-size array), rather than failing with a diagnostic. -/
theorem C2_all_skipped_emits_empty_list
    (i : String) (g : Generics) (fs : List InputField)
    (h : ∀ f ∈ fs, (f.ident).isSome = true ∧ f.attrs = [MetaItem.word "skip"]) :
    derive_field_names
        { ident := i, generics := g,
          data := InputData.structData FieldStyle.named fs } =
      Except.ok (some
        { ident := i, generics := g,
          consts := [{ name := "FIELDS", len := 0, elems := [] }] }) := by
  obtain ⟨rfs, hdec, hall⟩ := decodeFields_all_skip h
  have hfilter : rfs.filter (fun f => !f.skip) = [] := by
    apply List.filter_eq_nil_iff.mpr
    intro a ha
    simp [hall a ha]
  have h1 : fields.Receiver.from_derive_input
      { ident := i, generics := g,
        data := InputData.structData FieldStyle.named fs } =
      Except.ok { ident := i, generics := g,
                  data := Data.Struct FieldStyle.named rfs } := by
    unfold fields.Receiver.from_derive_input
    simp [hdec, Except.map]
  unfold derive_field_names
  rw [h1]
  simp only [Except.map, Except.ok.injEq]
  unfold fields.Receiver.to_tokens fields.Receiver.fields_to_emit
  simp [Data.take_struct, hfilter, fields.collectNames]

/-- Witness for C2: both fields of the all-skipped example struct are
skipped and generation emits the empty FIELDS constant. -/
theorem C2_all_skipped_emits_empty_list_witness :
    derive_field_names
        { ident := "Example", generics := { params := [], whereClause := [] },
          data := InputData.structData FieldStyle.named exAllSkipFields } =
      Except.ok (some
        { ident := "Example", generics := { params := [], whereClause := [] },
          consts := [{ name := "FIELDS", len := 0, elems := [] }] }) :=
  C2_all_skipped_emits_empty_list "Example" { params := [], whereClause := [] }
    exAllSkipFields (by decide)

/-- Unfolding the variant generator on an enum input. -/
theorem derive_variant_names_enum (i : String) (g : Generics) (vs : List InputVariant) :
    derive_variant_names { ident := i, generics := g, data := InputData.enumData vs } =
      (variants.decodeVariants vs).map fun rvs =>
        variants.Receiver.to_tokens
          { ident := i, generics := g, data := Data.Enum rvs } := by
  cases h : variants.decodeVariants vs with
  | error e =>
    simp [derive_variant_names, variants.Receiver.from_derive_input, h, Except.map]
  | ok rvs =>
    simp [derive_variant_names, variants.Receiver.from_derive_input, h, Except.map]

/-- Unfolding the field generator on a named-struct input. -/
theorem derive_field_names_named (i : String) (g : Generics) (fs : List InputField) :
    derive_field_names
        { ident := i, generics := g,
          data := InputData.structData FieldStyle.named fs } =
      (fields.decodeFields fs).map fun rfs =>
        fields.Receiver.to_tokens
          { ident := i, generics := g, data := Data.Struct FieldStyle.named rfs } := by
  cases h : fields.decodeFields fs with
  | error e =>
    simp [derive_field_names, fields.Receiver.from_derive_input, h, Except.map]
  | ok rfs =>
    simp [derive_field_names, fields.Receiver.from_derive_input, h, Except.map]

/-- A variant list's decode depends only on identifiers and annotations,
never on payload shapes. -/
theorem decodeVariants_shape_blind :
    ∀ {vs vs2 : List InputVariant},
      vs.map (fun v => (v.ident, v.attrs)) = vs2.map (fun v => (v.ident, v.attrs)) →
      variants.decodeVariants vs = variants.decodeVariants vs2 := by
  intro vs
  induction vs with
  | nil =>
    intro vs2 h
    cases vs2 with
    | nil => rfl
    | cons v t => exact absurd h (by simp)
  | cons v vs ih =>
    intro vs2 h
    cases vs2 with
    | nil => exact absurd h (by simp)
    | cons v2 t2 =>
      simp only [List.map_cons, List.cons.injEq, Prod.mk.injEq] at h
      obtain ⟨⟨hi, ha⟩, ht⟩ := h
      have h1 : variants.decodeVariant v = variants.decodeVariant v2 := by
        unfold variants.decodeVariant
        rw [hi, ha]
      have ih2 : collectExcept variants.decodeVariant vs =
          collectExcept variants.decodeVariant t2 := ih ht
      show collectExcept variants.decodeVariant (v :: vs) =
        collectExcept variants.decodeVariant (v2 :: t2)
      simp [collectExcept, h1, ih2]

/-- Decoding variants whose annotations are empty or a single bare skip
succeeds, the skip flag recording exactly annotation presence. -/
theorem decodeVariants_skip_or_empty :
    ∀ {vs : List InputVariant},
      (∀ v ∈ vs, v.attrs = [] ∨ v.attrs = [MetaItem.word "skip"]) →
      variants.decodeVariants vs =
        Except.ok (vs.map fun v => { ident := v.ident, skip := !v.attrs.isEmpty }) := by
  intro vs
  induction vs with
  | nil => intro _; rfl
  | cons v vs ih =>
    intro h
    have hv : variants.decodeVariant v =
        Except.ok { ident := v.ident, skip := !v.attrs.isEmpty } := by
      rcases h v (List.mem_cons_self v vs) with ha | ha <;>
        · unfold variants.decodeVariant
          rw [ha]
          rfl
    have ih2 : collectExcept variants.decodeVariant vs =
        Except.ok (vs.map fun v => { ident := v.ident, skip := !v.attrs.isEmpty }) :=
      ih fun w hw => h w (List.mem_cons_of_mem v hw)
    show collectExcept variants.decodeVariant (v :: vs) = _
    simp [collectExcept, hv, ih2, Except.map]

/-- C3: the variant-name extractor accepts every enumeration regardless
of variant payload shape: two enums agreeing on variant identifiers and
annotations but differing arbitrarily in payload shapes generate the
same result, and when each variant is unannotated or marked with a bare
skip, generation succeeds and emits exactly the non-skipped variant
names in declaration order. -/
theorem C3_variant_payload_shape_irrelevant
    (i : String) (g : Generics) (vs vs2 : List InputVariant)
    (hsame : vs.map (fun v => (v.ident, v.attrs)) =
      vs2.map (fun v => (v.ident, v.attrs)))
    (hok : ∀ v ∈ vs, v.attrs = [] ∨ v.attrs = [MetaItem.word "skip"]) :
    derive_variant_names
        { ident := i, generics := g, data := InputData.enumData vs } =
      derive_variant_names
        { ident := i, generics := g, data := InputData.enumData vs2 } ∧
    derive_variant_names
        { ident := i, generics := g, data := InputData.enumData vs } =
      Except.ok (some
        { ident := i, generics := g,
          consts := [{ name := "VARIANTS",
                       len := ((vs.filter fun v => v.attrs.isEmpty).map
                         InputVariant.ident).length,
                       elems := (vs.filter fun v => v.attrs.isEmpty).map
                         InputVariant.ident }] }) := by
  constructor
  · rw [derive_variant_names_enum, derive_variant_names_enum,
      decodeVariants_shape_blind hsame]
  · rw [derive_variant_names_enum, decodeVariants_skip_or_empty hok]
    simp only [Except.map, Except.ok.injEq]
    unfold variants.Receiver.to_tokens variants.Receiver.variants_to_emit
    simp [Data.take_enum, List.filter_map, Function.comp_def, Bool.not_not,
      List.map_map]

/-- Witness for C3 at the skip_variant test enum and its unit-shaped
twin. -/
theorem C3_variant_payload_shape_irrelevant_witness :
    derive_variant_names
        { ident := "Example", generics := { params := [], whereClause := [] },
          data := InputData.enumData exEnumVariants } =
      derive_variant_names
        { ident := "Example", generics := { params := [], whereClause := [] },
          data := InputData.enumData exEnumVariantsUnitShape } ∧
    derive_variant_names
        { ident := "Example", generics := { params := [], whereClause := [] },
          data := InputData.enumData exEnumVariants } =
      Except.ok (some
        { ident := "Example", generics := { params := [], whereClause := [] },
          consts := [{ name := "VARIANTS",
                       len := ((exEnumVariants.filter fun v => v.attrs.isEmpty).map
                         InputVariant.ident).length,
                       elems := (exEnumVariants.filter fun v => v.attrs.isEmpty).map
                         InputVariant.ident }] }) :=
  C3_variant_payload_shape_irrelevant "Example" { params := [], whereClause := [] }
    exEnumVariants exEnumVariantsUnitShape (by decide) (by decide)

/-- C4: every input that is not a named-field struct (tuple struct,
unit struct, union, or enum) fed to the field extractor fails at decode
with an unsupported-shape diagnostic, producing an error and no
fragment. -/
theorem C4_field_extractor_rejects_non_named_struct
    (inp : DeriveInput)
    (h : ∀ fs, inp.data ≠ InputData.structData FieldStyle.named fs) :
    derive_field_names inp = Except.error DecodeError.UnsupportedShape := by
  unfold derive_field_names fields.Receiver.from_derive_input
  cases hd : inp.data with
  | structData style fs =>
    cases style with
    | named => exact absurd hd (h fs)
    | tupled => rfl
    | unitStyle => rfl
  | enumData vs => rfl
  | unionData fs => rfl

/-- Witness for C4 at a two-field tuple struct. -/
theorem C4_field_extractor_rejects_non_named_struct_witness :
    derive_field_names exTupleInput = Except.error DecodeError.UnsupportedShape :=
  C4_field_extractor_rejects_non_named_struct exTupleInput
    (by intro fs h; simp [exTupleInput] at h)

/-- Error propagation through a whole decoded list: one failing member
makes the collection fail. -/
theorem collectExcept_error_of_mem {g : α → Except DecodeError β} :
    ∀ {l : List α} {a : α}, a ∈ l → (∃ e, g a = Except.error e) →
      ∃ e2, collectExcept g l = Except.error e2 := by
  intro l
  induction l with
  | nil => intro a ha; cases ha
  | cons x t ih =>
    intro a ha he
    rcases List.mem_cons.mp ha with ha | ha
    · subst ha
      obtain ⟨e, he⟩ := he
      exact ⟨e, by simp [collectExcept, he]⟩
    · cases hx : g x with
      | error e => exact ⟨e, by simp [collectExcept, hx]⟩
      | ok b =>
        obtain ⟨e2, h2⟩ := ih ha he
        exact ⟨e2, by simp [collectExcept, hx, h2, Except.map]⟩

/-- An annotation item naming anything but skip decodes to the
unrecognized-option error. -/
theorem decodeSkip_unknown {item : MetaItem} (h : item.optionName ≠ "skip")
    (l2 : List MetaItem) :
    decodeSkip (item :: l2) = Except.error DecodeError.UnknownOption := by
  cases item with
  | word n =>
    have hn : n ≠ "skip" := h
    simp [decodeSkip, hn]
  | nameValue n v =>
    have hn : n ≠ "skip" := h
    simp [decodeSkip, hn]

/-- A decode error in the annotation tail survives any run of bare skip
items before it. -/
theorem decodeSkip_error_after_skips :
    ∀ {l1 : List MetaItem}, (∀ j ∈ l1, j = MetaItem.word "skip") →
      ∀ {rest : List MetaItem} {e : DecodeError},
        decodeSkip rest = Except.error e →
        decodeSkip (l1 ++ rest) = Except.error e := by
  intro l1
  induction l1 with
  | nil => intro _ rest e h; exact h
  | cons j t ih =>
    intro h rest e hrest
    have hj : j = MetaItem.word "skip" := h j (List.mem_cons_self j t)
    subst hj
    have h2 := ih (fun k hk => h k (List.mem_cons_of_mem _ hk)) hrest
    show decodeSkip (MetaItem.word "skip" :: (t ++ rest)) = _
    simp [decodeSkip, h2, Except.map]

/-- C5: a member annotation carrying any option other than skip makes
Decode fail: after any run of bare skip items, the offending item
decodes to the unrecognized-option error, and a declaration containing
such a member yields a diagnostic and no fragment for either
extractor. -/
theorem C5_unknown_option_is_closed_set_error
    (l1 l2 : List MetaItem) (item : MetaItem)
    (h1 : ∀ j ∈ l1, j = MetaItem.word "skip")
    (hname : item.optionName ≠ "skip")
    (i : String) (g : Generics)
    (fs : List InputField) (f : InputField)
    (hf : f ∈ fs) (hfa : f.attrs = l1 ++ item :: l2)
    (vs : List InputVariant) (v : InputVariant)
    (hv : v ∈ vs) (hva : v.attrs = l1 ++ item :: l2) :
    decodeSkip (l1 ++ item :: l2) = Except.error DecodeError.UnknownOption ∧
    (∃ e, derive_field_names
        { ident := i, generics := g,
          data := InputData.structData FieldStyle.named fs } =
      Except.error e) ∧
    (∃ e, derive_variant_names
        { ident := i, generics := g, data := InputData.enumData vs } =
      Except.error e) := by
  have hitem : decodeSkip (l1 ++ item :: l2) =
      Except.error DecodeError.UnknownOption :=
    decodeSkip_error_after_skips h1 (decodeSkip_unknown hname l2)
  refine ⟨hitem, ?_, ?_⟩
  · have hfe : ∃ e, fields.decodeField f = Except.error e := by
      cases hi : f.ident with
      | none =>
        exact ⟨DecodeError.MissingMemberName, by unfold fields.decodeField; rw [hi]⟩
      | some n =>
        refine ⟨DecodeError.UnknownOption, ?_⟩
        unfold fields.decodeField
        rw [hi, hfa, hitem]
        rfl
    obtain ⟨e2, h2⟩ := collectExcept_error_of_mem hf hfe
    refine ⟨e2, ?_⟩
    rw [derive_field_names_named]
    rw [show fields.decodeFields fs = Except.error e2 from h2]
    rfl
  · have hve : ∃ e, variants.decodeVariant v = Except.error e :=
      ⟨DecodeError.UnknownOption, by
        unfold variants.decodeVariant
        rw [hva, hitem]
        rfl⟩
    obtain ⟨e2, h2⟩ := collectExcept_error_of_mem hv hve
    refine ⟨e2, ?_⟩
    rw [derive_variant_names_enum]
    rw [show variants.decodeVariants vs = Except.error e2 from h2]
    rfl

/-- Witness for C5 at a member annotated with the unrecognized option
named rename. -/
theorem C5_unknown_option_is_closed_set_error_witness :
    decodeSkip ([] ++ MetaItem.word "rename" :: []) =
      Except.error DecodeError.UnknownOption ∧
    (∃ e, derive_field_names
        { ident := "Example", generics := { params := [], whereClause := [] },
          data := InputData.structData FieldStyle.named
            [{ ident := some "x", attrs := [MetaItem.word "rename"] }] } =
      Except.error e) ∧
    (∃ e, derive_variant_names
        { ident := "Example", generics := { params := [], whereClause := [] },
          data := InputData.enumData
            [{ ident := "A", shape := VariantShape.unit,
               attrs := [MetaItem.word "rename"] }] } =
      Except.error e) :=
  C5_unknown_option_is_closed_set_error [] [] (MetaItem.word "rename")
    (by decide) (by decide) "Example" { params := [], whereClause := [] }
    [{ ident := some "x", attrs := [MetaItem.word "rename"] }]
    { ident := some "x", attrs := [MetaItem.word "rename"] }
    (by decide) (by decide)
    [{ ident := "A", shape := VariantShape.unit,
       attrs := [MetaItem.word "rename"] }]
    { ident := "A", shape := VariantShape.unit,
      attrs := [MetaItem.word "rename"] }
    (by decide) (by decide)

/-- Inversion for a successful field-extractor run: the fragment echoes
the identifier and generics, and its single constant is computed from
the declaration body alone. -/
theorem derive_field_names_ok_shape (i : String) (g : Generics) (d : InputData)
    {f : Fragment}
    (h : derive_field_names { ident := i, generics := g, data := d } =
      Except.ok (some f)) :
    f.ident = i ∧ f.generics = g ∧
    ∃ fs rfs names, d = InputData.structData FieldStyle.named fs ∧
      fields.decodeFields fs = Except.ok rfs ∧
      fields.collectNames (rfs.filter fun x => !x.skip) = some names ∧
      f.consts = [{ name := "FIELDS", len := names.length, elems := names }] := by
  unfold derive_field_names at h
  cases hr : fields.Receiver.from_derive_input
      { ident := i, generics := g, data := d } with
  | error e => rw [hr] at h; exact Except.noConfusion h
  | ok r =>
    rw [hr] at h
    simp only [Except.map, Except.ok.injEq] at h
    obtain ⟨fs, rfs, hd, hdec, hrr⟩ := fields_decode_ok hr
    subst hrr
    cases hemit : fields.collectNames (rfs.filter fun x => !x.skip) with
    | none =>
      rw [show fields.Receiver.to_tokens
          { ident := i, generics := g, data := Data.Struct FieldStyle.named rfs } =
          none from by
        unfold fields.Receiver.to_tokens
        show Option.map _ (fields.collectNames (rfs.filter fun x => !x.skip)) = _
        rw [hemit]
        rfl] at h
      exact Option.noConfusion h
    | some names =>
      rw [show fields.Receiver.to_tokens
          { ident := i, generics := g, data := Data.Struct FieldStyle.named rfs } =
          some { ident := i, generics := g,
                 consts := [{ name := "FIELDS", len := names.length,
                              elems := names }] } from by
        unfold fields.Receiver.to_tokens
        show Option.map _ (fields.collectNames (rfs.filter fun x => !x.skip)) = _
        rw [hemit]
        rfl] at h
      have hf : f =
          { ident := i, generics := g,
            consts := [{ name := "FIELDS", len := names.length,
                         elems := names }] } :=
        ((Option.some.injEq _ _).mp h).symm
      subst hf
      exact ⟨rfl, rfl, fs, rfs, names, hd, hdec, hemit, rfl⟩

/-- Inversion for a successful variant-extractor run: the fragment
echoes the identifier and generics, and its single constant is computed
from the declaration body alone. -/
theorem derive_variant_names_ok_shape (i : String) (g : Generics) (d : InputData)
    {f : Fragment}
    (h : derive_variant_names { ident := i, generics := g, data := d } =
      Except.ok (some f)) :
    f.ident = i ∧ f.generics = g ∧
    ∃ vs rvs names, d = InputData.enumData vs ∧
      variants.decodeVariants vs = Except.ok rvs ∧
      (rvs.filter fun v => !v.skip).map variants.ReceiverVariant.ident = names ∧
      f.consts = [{ name := "VARIANTS", len := names.length, elems := names }] := by
  unfold derive_variant_names at h
  cases hr : variants.Receiver.from_derive_input
      { ident := i, generics := g, data := d } with
  | error e => rw [hr] at h; exact Except.noConfusion h
  | ok r =>
    rw [hr] at h
    simp only [Except.map, Except.ok.injEq] at h
    obtain ⟨vs, rvs, hd, hdec, hrr⟩ := variants_decode_ok hr
    subst hrr
    rw [show variants.Receiver.to_tokens
        { ident := i, generics := g, data := Data.Enum rvs } =
        some { ident := i, generics := g,
               consts := [{ name := "VARIANTS",
                            len := ((rvs.filter fun v => !v.skip).map
                              variants.ReceiverVariant.ident).length,
                            elems := (rvs.filter fun v => !v.skip).map
                              variants.ReceiverVariant.ident }] } from rfl] at h
    have hf : f =
        { ident := i, generics := g,
          consts := [{ name := "VARIANTS",
                       len := ((rvs.filter fun v => !v.skip).map
                         variants.ReceiverVariant.ident).length,
                       elems := (rvs.filter fun v => !v.skip).map
                         variants.ReceiverVariant.ident }] } :=
      ((Option.some.injEq _ _).mp h).symm
    subst hf
    exact ⟨rfl, rfl, vs, rvs, _, hd, hdec, rfl, rfl⟩

/-- C6: the emitted fragment reproduces the declaration's generics
signature exactly as declared, and the emitted name list is independent
of it: the same declaration body under two different generics signatures
yields fragments with identical constants (same names, same count), for
both extractors. -/
theorem C6_generics_echoed_and_list_invariant
    (i : String) (g1 g2 : Generics) (dF dV : InputData)
    (f1 f2 f3 f4 : Fragment)
    (h1 : derive_field_names { ident := i, generics := g1, data := dF } =
      Except.ok (some f1))
    (h2 : derive_field_names { ident := i, generics := g2, data := dF } =
      Except.ok (some f2))
    (h3 : derive_variant_names { ident := i, generics := g1, data := dV } =
      Except.ok (some f3))
    (h4 : derive_variant_names { ident := i, generics := g2, data := dV } =
      Except.ok (some f4)) :
    f1.generics = g1 ∧ f2.generics = g2 ∧ f1.consts = f2.consts ∧ f1.ident = i ∧
    f3.generics = g1 ∧ f4.generics = g2 ∧ f3.consts = f4.consts ∧ f3.ident = i := by
  obtain ⟨hi1, hg1, fs1, rfs1, names1, hd1, hdec1, hem1, hc1⟩ :=
    derive_field_names_ok_shape i g1 dF h1
  obtain ⟨hi2, hg2, fs2, rfs2, names2, hd2, hdec2, hem2, hc2⟩ :=
    derive_field_names_ok_shape i g2 dF h2
  obtain ⟨hi3, hg3, vs1, rvs1, vnames1, hdv1, hdecv1, hvm1, hc3⟩ :=
    derive_variant_names_ok_shape i g1 dV h3
  obtain ⟨hi4, hg4, vs2, rvs2, vnames2, hdv2, hdecv2, hvm2, hc4⟩ :=
    derive_variant_names_ok_shape i g2 dV h4
  have hfs : fs1 = fs2 := by
    rw [hd1] at hd2
    exact ((InputData.structData.injEq _ _ _ _).mp hd2).2
  subst hfs
  have hrfs : rfs1 = rfs2 := by
    rw [hdec1] at hdec2
    exact (Except.ok.injEq _ _).mp hdec2
  subst hrfs
  have hnames : names1 = names2 := by
    rw [hem1] at hem2
    exact (Option.some.injEq _ _).mp hem2
  subst hnames
  have hvs : vs1 = vs2 := by
    rw [hdv1] at hdv2
    exact (InputData.enumData.injEq _ _).mp hdv2
  subst hvs
  have hrvs : rvs1 = rvs2 := by
    rw [hdecv1] at hdecv2
    exact (Except.ok.injEq _ _).mp hdecv2
  subst hrvs
  have hvnames : vnames1 = vnames2 := by rw [← hvm1, ← hvm2]
  subst hvnames
  exact ⟨hg1, hg2, by rw [hc1, hc2], hi1, hg3, hg4, by rw [hc3, hc4], hi3⟩

/-- Witness for C6: the same struct and enum bodies under two different
generics signatures yield fragments that echo each signature and share
identical constants. -/
theorem C6_generics_echoed_and_list_invariant_witness :
    (Fragment.generics
        { ident := "Example", generics := exGenericsA,
          consts := [{ name := "FIELDS", len := 2,
                       elems := ["hello", "world"] }] } = exGenericsA) ∧
    (Fragment.generics
        { ident := "Example", generics := exGenericsB,
          consts := [{ name := "FIELDS", len := 2,
                       elems := ["hello", "world"] }] } = exGenericsB) ∧
    (Fragment.consts
        { ident := "Example", generics := exGenericsA,
          consts := [{ name := "FIELDS", len := 2,
                       elems := ["hello", "world"] }] } =
      Fragment.consts
        { ident := "Example", generics := exGenericsB,
          consts := [{ name := "FIELDS", len := 2,
                       elems := ["hello", "world"] }] }) ∧
    (Fragment.ident
        { ident := "Example", generics := exGenericsA,
          consts := [{ name := "FIELDS", len := 2,
                       elems := ["hello", "world"] }] } = "Example") ∧
    (Fragment.generics
        { ident := "Example", generics := exGenericsA,
          consts := [{ name := "VARIANTS", len := 2,
                       elems := ["Hello", "World"] }] } = exGenericsA) ∧
    (Fragment.generics
        { ident := "Example", generics := exGenericsB,
          consts := [{ name := "VARIANTS", len := 2,
                       elems := ["Hello", "World"] }] } = exGenericsB) ∧
    (Fragment.consts
        { ident := "Example", generics := exGenericsA,
          consts := [{ name := "VARIANTS", len := 2,
                       elems := ["Hello", "World"] }] } =
      Fragment.consts
        { ident := "Example", generics := exGenericsB,
          consts := [{ name := "VARIANTS", len := 2,
                       elems := ["Hello", "World"] }] }) ∧
    (Fragment.ident
        { ident := "Example", generics := exGenericsA,
          consts := [{ name := "VARIANTS", len := 2,
                       elems := ["Hello", "World"] }] } = "Example") :=
  C6_generics_echoed_and_list_invariant "Example" exGenericsA exGenericsB
    (InputData.structData FieldStyle.named
      [ { ident := some "hello", attrs := [] },
        { ident := some "hidden", attrs := [MetaItem.word "skip"] },
        { ident := some "world", attrs := [] } ])
    (InputData.enumData exEnumVariants)
    { ident := "Example", generics := exGenericsA,
      consts := [{ name := "FIELDS", len := 2, elems := ["hello", "world"] }] }
    { ident := "Example", generics := exGenericsB,
      consts := [{ name := "FIELDS", len := 2, elems := ["hello", "world"] }] }
    { ident := "Example", generics := exGenericsA,
      consts := [{ name := "VARIANTS", len := 2, elems := ["Hello", "World"] }] }
    { ident := "Example", generics := exGenericsB,
      consts := [{ name := "VARIANTS", len := 2, elems := ["Hello", "World"] }] }
    (by rfl) (by rfl) (by rfl) (by rfl)

/-- A nonempty run of bare skip items decodes to a set skip flag; the
empty annotation leaves the default. -/
theorem decodeSkip_all_skip :
    ∀ {l : List MetaItem}, (∀ j ∈ l, j = MetaItem.word "skip") →
      decodeSkip l = Except.ok (!l.isEmpty) := by
  intro l
  induction l with
  | nil => intro _; rfl
  | cons j t ih =>
    intro h
    have hj : j = MetaItem.word "skip" := h j (List.mem_cons_self j t)
    subst hj
    have ih2 := ih fun k hk => h k (List.mem_cons_of_mem _ hk)
    simp [decodeSkip, ih2, Except.map]

/-- C7: skip is a presence-only flag: the absent annotation decodes to
false (member included), an annotation of bare skip items decodes to
true, supplying a value to skip is a malformed-annotation decode error,
and a field with an empty annotation is decoded as not skipped. -/
theorem C7_skip_is_presence_only_flag
    (v : Bool) (rest attrs : List MetaItem) (n : String)
    (hne : attrs ≠ [])
    (hall : ∀ j ∈ attrs, j = MetaItem.word "skip") :
    decodeSkip [] = Except.ok false ∧
    decodeSkip attrs = Except.ok true ∧
    decodeSkip (MetaItem.nameValue "skip" v :: rest) =
      Except.error DecodeError.Malformed ∧
    fields.decodeField { ident := some n, attrs := [] } =
      Except.ok { ident := some n, skip := false } := by
  refine ⟨rfl, ?_, rfl, rfl⟩
  rw [decodeSkip_all_skip hall]
  have he : attrs.isEmpty = false := by
    cases attrs with
    | nil => exact absurd rfl hne
    | cons a t => rfl
  rw [he]
  rfl

/-- Witness for C7 at the annotation holding a single bare skip. -/
theorem C7_skip_is_presence_only_flag_witness :
    decodeSkip [] = Except.ok false ∧
    decodeSkip [MetaItem.word "skip"] = Except.ok true ∧
    decodeSkip (MetaItem.nameValue "skip" true :: []) =
      Except.error DecodeError.Malformed ∧
    fields.decodeField { ident := some "hello", attrs := [] } =
      Except.ok { ident := some "hello", skip := false } :=
  C7_skip_is_presence_only_flag true [] [MetaItem.word "skip"] "hello"
    (by decide) (by decide)

/-- C8: generation is deterministic: the whole Decode, Filter and Order,
Emit pipeline is a pure function of the input declaration, so two runs
on the same unchanged declaration return identical results for both
generators, with no dependence on outside state. -/
theorem C8_generation_deterministic (inp inp2 : DeriveInput) (h : inp = inp2) :
    derive_field_names inp = derive_field_names inp2 ∧
    derive_variant_names inp = derive_variant_names inp2 := by
  subst h
  exact ⟨rfl, rfl⟩

/-- Witness for C8 at the field-test struct input. -/
theorem C8_generation_deterministic_witness :
    derive_field_names exStructInput = derive_field_names exStructInput ∧
    derive_variant_names exStructInput = derive_variant_names exStructInput :=
  C8_generation_deterministic exStructInput exStructInput rfl

/-- C9: a successful emission defines exactly one associated constant on
the original type, named FIELDS for the field extractor and VARIANTS for
the variant extractor, a fixed-size string array whose length equals the
filtered name count. -/
theorem C9_single_constant_named_FIELDS_VARIANTS
    (r : fields.Receiver) (rv : variants.Receiver) (f fv : Fragment)
    (hf : r.to_tokens = some f) (hv : rv.to_tokens = some fv) :
    (∃ names, r.fields_to_emit = some names ∧ f.ident = r.ident ∧
      f.consts = [{ name := "FIELDS", len := names.length, elems := names }]) ∧
    (∃ names, rv.variants_to_emit = some names ∧ fv.ident = rv.ident ∧
      fv.consts = [{ name := "VARIANTS", len := names.length,
                     elems := names }]) := by
  constructor
  · unfold fields.Receiver.to_tokens at hf
    cases he : r.fields_to_emit with
    | none => rw [he] at hf; exact Option.noConfusion hf
    | some names =>
      rw [he] at hf
      simp only [Option.map, Option.some.injEq] at hf
      exact ⟨names, rfl, by rw [← hf], by rw [← hf]⟩
  · unfold variants.Receiver.to_tokens at hv
    cases he : rv.variants_to_emit with
    | none => rw [he] at hv; exact Option.noConfusion hv
    | some names =>
      rw [he] at hv
      simp only [Option.map, Option.some.injEq] at hv
      exact ⟨names, rfl, by rw [← hv], by rw [← hv]⟩

/-- Witness for C9 at the two test receivers. -/
theorem C9_single_constant_named_FIELDS_VARIANTS_witness :
    (∃ names, exStructReceiver.fields_to_emit = some names ∧
      Fragment.ident
        { ident := "Example", generics := { params := [], whereClause := [] },
          consts := [{ name := "FIELDS", len := 2,
                       elems := ["hello", "world"] }] } = exStructReceiver.ident ∧
      Fragment.consts
        { ident := "Example", generics := { params := [], whereClause := [] },
          consts := [{ name := "FIELDS", len := 2,
                       elems := ["hello", "world"] }] } =
        [{ name := "FIELDS", len := names.length, elems := names }]) ∧
    (∃ names, exEnumReceiver.variants_to_emit = some names ∧
      Fragment.ident
        { ident := "Example", generics := { params := [], whereClause := [] },
          consts := [{ name := "VARIANTS", len := 2,
                       elems := ["Hello", "World"] }] } = exEnumReceiver.ident ∧
      Fragment.consts
        { ident := "Example", generics := { params := [], whereClause := [] },
          consts := [{ name := "VARIANTS", len := 2,
                       elems := ["Hello", "World"] }] } =
        [{ name := "VARIANTS", len := names.length, elems := names }]) :=
  C9_single_constant_named_FIELDS_VARIANTS exStructReceiver exEnumReceiver
    { ident := "Example", generics := { params := [], whereClause := [] },
      consts := [{ name := "FIELDS", len := 2, elems := ["hello", "world"] }] }
    { ident := "Example", generics := { params := [], whereClause := [] },
      consts := [{ name := "VARIANTS", len := 2, elems := ["Hello", "World"] }] }
    (by rfl) (by rfl)

/-- C10: for receivers produced by a successful decode the panic
branches of name extraction are unreachable: the field receiver's data
is struct shaped so take_struct succeeds, every decoded field still has
its identifier so each name rendering succeeds, extraction as a whole
returns a value, and the variant receiver's data is enum shaped so
take_enum and extraction succeed. -/
theorem C10_panic_branches_unreachable_after_decode
    (inpF inpV : DeriveInput) (r : fields.Receiver) (rv : variants.Receiver)
    (hf : fields.Receiver.from_derive_input inpF = .ok r)
    (hv : variants.Receiver.from_derive_input inpV = .ok rv) :
    (r.data.take_struct).isSome = true ∧
    (∀ style rfs, r.data = Data.Struct style rfs →
      ∀ x ∈ rfs, (fields.ReceiverField.name x).isSome = true) ∧
    (r.fields_to_emit).isSome = true ∧
    (rv.data.take_enum).isSome = true ∧
    (rv.variants_to_emit).isSome = true := by
  obtain ⟨fs, rfs, hd, hdec, hr⟩ := fields_decode_ok hf
  obtain ⟨hmap, hall⟩ := decodeFields_ok_idents hdec
  obtain ⟨vs, rvs, hdv, hdecv, hrv⟩ := variants_decode_ok hv
  subst hr
  subst hrv
  refine ⟨rfl, ?_, ?_, rfl, rfl⟩
  · intro style rfs2 hdat x hx
    have hdat2 : Data.Struct FieldStyle.named rfs = Data.Struct style rfs2 := hdat
    injection hdat2 with h1 h2
    subst h2
    exact hall x hx
  · show (fields.collectNames (rfs.filter fun f => !f.skip)).isSome = true
    rw [collectNames_eq_filterMap fun f hfm => hall f (List.mem_of_mem_filter hfm)]
    rfl

/-- Witness for C10 at the two test declarations and their receivers. -/
theorem C10_panic_branches_unreachable_after_decode_witness :
    (exStructReceiver.data.take_struct).isSome = true ∧
    (∀ style rfs, exStructReceiver.data = Data.Struct style rfs →
      ∀ x ∈ rfs, (fields.ReceiverField.name x).isSome = true) ∧
    (exStructReceiver.fields_to_emit).isSome = true ∧
    (exEnumReceiver.data.take_enum).isSome = true ∧
    (exEnumReceiver.variants_to_emit).isSome = true :=
  C10_panic_branches_unreachable_after_decode exStructInput exEnumInput
    exStructReceiver exEnumReceiver (by rfl) (by rfl)
